import Mathlib

/-!
Verification of the gh-service repository: a shallow embedding of the
GitHub API client wrapper (src/github/mod.rs) and the HTTP server stub
(src/main.rs), together with theorems settling the specification claims.

Modelling conventions:
* Response bodies are modelled as `String`s (reqwest's `text()` decodes
  lossily, so a successfully read body is always text); a transport
  failure while reading the body is a separate `BodyResult.failed` case.
* JSON parsing and the serde-derived `Deserialize` for `Repository` are
  embedded as executable Lean functions.
* A Rust panic (`unwrap` on an `Err`) is modelled as a distinct outcome,
  not as a returned error value.
-/

namespace GhService

/-- JSON values as produced by a JSON text parser.  Numeric literals keep
their source text: the client never inspects numeric values, only their
type. -/
inductive Json where
  | null : Json
  | bool (b : Bool) : Json
  | num (lit : String) : Json
  | str (s : String) : Json
  | arr (elems : List Json) : Json
  | obj (fields : List (String × Json)) : Json

/-- JSON insignificant whitespace. -/
def isJsonWs (c : Char) : Bool :=
  c = ' ' || c = '\t' || c = '\n' || c = '\r'

/-- Drop leading JSON whitespace. -/
def skipWs : List Char → List Char
  | c :: rest => if isJsonWs c then skipWs rest else c :: rest
  | [] => []

/-- Hex digit value, if any. -/
def hexDigit (c : Char) : Option Nat :=
  if '0' ≤ c ∧ c ≤ '9' then some (c.toNat - '0'.toNat)
  else if 'a' ≤ c ∧ c ≤ 'f' then some (c.toNat - 'a'.toNat + 10)
  else if 'A' ≤ c ∧ c ≤ 'F' then some (c.toNat - 'A'.toNat + 10)
  else none

/-- Read exactly four hex digits (a `\uXXXX` escape payload). -/
def readHex4 : List Char → Option (Nat × List Char)
  | a :: b :: c :: d :: rest =>
    match hexDigit a, hexDigit b, hexDigit c, hexDigit d with
    | some x, some y, some z, some w => some (x * 4096 + y * 256 + z * 16 + w, rest)
    | _, _, _, _ => none
  | _ => none

/-- Parse the remainder of a JSON string literal (the opening quote already
consumed), handling escapes, rejecting raw control characters and lone
surrogates, as serde_json does. -/
def readStringRest (fuel : Nat) (acc : List Char) (input : List Char) :
    Option (String × List Char) :=
  match fuel, input with
  | 0, _ => none
  | _, [] => none
  | fuel + 1, c :: rest =>
    if c = '"' then some (String.mk acc.reverse, rest)
    else if c = '\\' then
      match rest with
      | [] => none
      | e :: rest2 =>
        if e = '"' then readStringRest fuel ('"' :: acc) rest2
        else if e = '\\' then readStringRest fuel ('\\' :: acc) rest2
        else if e = '/' then readStringRest fuel ('/' :: acc) rest2
        else if e = 'b' then readStringRest fuel ('\x08' :: acc) rest2
        else if e = 'f' then readStringRest fuel ('\x0c' :: acc) rest2
        else if e = 'n' then readStringRest fuel ('\n' :: acc) rest2
        else if e = 'r' then readStringRest fuel ('\r' :: acc) rest2
        else if e = 't' then readStringRest fuel ('\t' :: acc) rest2
        else if e = 'u' then
          match readHex4 rest2 with
          | none => none
          | some (n, rest3) =>
            if n < 0xD800 ∨ 0xDFFF < n then
              readStringRest fuel (Char.ofNat n :: acc) rest3
            else if n ≤ 0xDBFF then
              -- leading surrogate: a trailing surrogate escape must follow
              match rest3 with
              | '\\' :: 'u' :: rest4 =>
                match readHex4 rest4 with
                | some (m, rest5) =>
                  if 0xDC00 ≤ m ∧ m ≤ 0xDFFF then
                    readStringRest fuel
                      (Char.ofNat (0x10000 + (n - 0xD800) * 0x400 + (m - 0xDC00)) :: acc)
                      rest5
                  else none
                | none => none
              | _ => none
            else none
        else none
    else if c.toNat < 0x20 then none
    else readStringRest fuel (c :: acc) rest

/-- Take the longest run of leading decimal digits. -/
def spanDigits : List Char → List Char × List Char
  | c :: rest =>
    if c.isDigit then
      let (ds, r) := spanDigits rest
      (c :: ds, r)
    else ([], c :: rest)
  | [] => ([], [])

/-- Optional fraction part of a JSON number. -/
def readFrac : List Char → Option (List Char × List Char)
  | '.' :: r =>
    match spanDigits r with
    | ([], _) => none
    | (ds, rest) => some ('.' :: ds, rest)
  | input => some ([], input)

/-- Optional exponent part of a JSON number. -/
def readExp (input : List Char) : Option (List Char × List Char) :=
  match input with
  | c :: r =>
    if c = 'e' ∨ c = 'E' then
      let (sign, r2) : List Char × List Char :=
        match r with
        | s :: r2 => if s = '+' ∨ s = '-' then ([s], r2) else ([], s :: r2)
        | [] => ([], [])
      match spanDigits r2 with
      | ([], _) => none
      | (ds, rest) => some (c :: (sign ++ ds), rest)
    else some ([], c :: r)
  | [] => some ([], [])

/-- Parse a JSON number literal, keeping its text. -/
def readNumber (input : List Char) : Option (String × List Char) :=
  let (neg, rest1) : List Char × List Char :=
    match input with
    | '-' :: r => (['-'], r)
    | _ => ([], input)
  match rest1 with
  | c :: rest2 =>
    if c = '0' then
      match readFrac rest2 with
      | none => none
      | some (fr, rest3) =>
        match readExp rest3 with
        | none => none
        | some (ex, rest4) => some (String.mk (neg ++ '0' :: (fr ++ ex)), rest4)
    else if c.isDigit then
      let (ds, rest3) := spanDigits rest2
      match readFrac rest3 with
      | none => none
      | some (fr, rest4) =>
        match readExp rest4 with
        | none => none
        | some (ex, rest5) => some (String.mk (neg ++ c :: (ds ++ fr ++ ex)), rest5)
    else none
  | [] => none

mutual

/-- Parse one JSON value (fuelled recursive descent). -/
def readValue : Nat → List Char → Option (Json × List Char)
  | 0, _ => none
  | fuel + 1, input =>
    match skipWs input with
    | [] => none
    | c :: rest =>
      if c = 'n' then
        match rest with
        | 'u' :: 'l' :: 'l' :: r => some (.null, r)
        | _ => none
      else if c = 't' then
        match rest with
        | 'r' :: 'u' :: 'e' :: r => some (.bool true, r)
        | _ => none
      else if c = 'f' then
        match rest with
        | 'a' :: 'l' :: 's' :: 'e' :: r => some (.bool false, r)
        | _ => none
      else if c = '"' then
        match readStringRest (rest.length + 1) [] rest with
        | some (s, r) => some (.str s, r)
        | none => none
      else if c = '[' then
        match skipWs rest with
        | ']' :: r => some (.arr [], r)
        | r2 => readElems fuel r2 []
      else if c = '{' then
        match skipWs rest with
        | '}' :: r => some (.obj [], r)
        | r2 => readFields fuel r2 []
      else
        match readNumber (c :: rest) with
        | some (lit, r) => some (.num lit, r)
        | none => none

/-- Parse the elements of a non-empty JSON array. -/
def readElems : Nat → List Char → List Json → Option (Json × List Char)
  | 0, _, _ => none
  | fuel + 1, input, acc =>
    match readValue fuel input with
    | none => none
    | some (v, rest) =>
      match skipWs rest with
      | ',' :: r => readElems fuel r (v :: acc)
      | ']' :: r => some (.arr (v :: acc).reverse, r)
      | _ => none

/-- Parse the members of a non-empty JSON object. -/
def readFields : Nat → List Char → List (String × Json) → Option (Json × List Char)
  | 0, _, _ => none
  | fuel + 1, input, acc =>
    match skipWs input with
    | '"' :: rest =>
      match readStringRest (rest.length + 1) [] rest with
      | none => none
      | some (key, rest2) =>
        match skipWs rest2 with
        | ':' :: rest3 =>
          match readValue fuel rest3 with
          | none => none
          | some (v, rest4) =>
            match skipWs rest4 with
            | ',' :: r => readFields fuel r ((key, v) :: acc)
            | '}' :: r => some (.obj ((key, v) :: acc).reverse, r)
            | _ => none
        | _ => none
    | _ => none

end

/-- Parse a complete JSON document: one value, then only trailing
whitespace. -/
def parseJson (s : String) : Option Json :=
  match readValue (s.length + 1) s.data with
  | some (v, rest) => if skipWs rest = [] then some v else none
  | none => none

/-- `pub struct Repository { full_name, description, html_url }`
(src/github/mod.rs).  `description: Option<String>` is optional in the
serde sense; the other two fields are required strings. -/
structure Repository where
  full_name : String
  description : Option String
  html_url : String
deriving DecidableEq

/-- Partial state of the serde-derived map visitor for `Repository`:
which fields have been seen so far, and with which values. -/
structure DePartial where
  full_name : Option String
  description : Option (Option String)
  html_url : Option String

/-- One step of the serde map visitor: a known key must not repeat and
must carry a value of the right type; unknown keys are skipped (serde's
default without `deny_unknown_fields`). -/
def deField (st : DePartial) (kv : String × Json) : Option DePartial :=
  if kv.1 = "full_name" then
    match st.full_name, kv.2 with
    | none, .str s => some { st with full_name := some s }
    | _, _ => none
  else if kv.1 = "description" then
    match st.description, kv.2 with
    | none, .null => some { st with description := some none }
    | none, .str s => some { st with description := some (some s) }
    | _, _ => none
  else if kv.1 = "html_url" then
    match st.html_url, kv.2 with
    | none, .str s => some { st with html_url := some s }
    | _, _ => none
  else some st

/-- Run the map visitor over all members of a JSON object. -/
def deFields : List (String × Json) → DePartial → Option DePartial
  | [], st => some st
  | kv :: rest, st =>
    match deField st kv with
    | none => none
    | some st2 => deFields rest st2

/-- Finish the map visitor: the required fields must have been seen; a
missing `description` defaults to `none` (serde's handling of `Option`
fields). -/
def finishDe (st : DePartial) : Option Repository :=
  match st.full_name, st.html_url with
  | some fn, some hu => some ⟨fn, st.description.getD none, hu⟩
  | _, _ => none

/-- The serde-derived `Deserialize` for `Repository` applied to a parsed
JSON value.  A JSON object is visited as a map; serde_json also accepts a
JSON array read positionally (full_name, description, html_url); anything
else fails. -/
def deserializeRepository : Json → Option Repository
  | .obj fields => (deFields fields ⟨none, none, none⟩).bind finishDe
  | .arr [.str fn, d, .str hu] =>
    match d with
    | .null => some ⟨fn, none, hu⟩
    | .str s => some ⟨fn, some s, hu⟩
    | _ => none
  | _ => none

/-! ## HTTP transport model

An outgoing request is a method and a URL.  The network is a function
from requests to outcomes: the send itself can fail (`SendResult.failed`,
reqwest's transport error), or produce a response whose status is known
and whose body either reads fully to text or fails mid-read
(`BodyResult.failed`).  Bodies are modelled post-decoding as `String`s:
reqwest's `text()` decodes lossily and only fails on transport errors. -/

/-- An HTTP request as built by the client: method and full URL. -/
structure HttpRequest where
  method : String
  url : String
deriving DecidableEq

/-- Reading a response body either yields its full text or fails at the
transport layer. -/
inductive BodyResult where
  | ok (text : String) : BodyResult
  | failed : BodyResult
deriving DecidableEq

/-- An HTTP response: numeric status code and body. -/
structure HttpResponse where
  status : Nat
  body : BodyResult
deriving DecidableEq

/-- Outcome of `send()`: transport failure, or a response. -/
inductive SendResult where
  | failed : SendResult
  | response (resp : HttpResponse) : SendResult
deriving DecidableEq

/-- `StatusCode::is_success()` from the http crate: 2xx. -/
def statusIsSuccess (code : Nat) : Bool :=
  200 ≤ code && code < 300

/-! ## GitHub API client (src/github/mod.rs) -/

/-- `pub enum GHAPIError` (src/github/mod.rs). -/
inductive GHAPIError where
  | ClientCreationFailed : GHAPIError
  | RequestFailed : GHAPIError
  | ResponseUnsuccessful (msg : String) : GHAPIError
  | FailedToDeserialize : GHAPIError
deriving DecidableEq

/-- `static BASE_URL: &str = "https://api.github.com"`. -/
def BASE_URL : String := "https://api.github.com"

/-- A byte is valid inside an http-crate `HeaderValue`: visible ASCII,
space, any byte ≥ 128, or horizontal tab — but no other control byte and
not DEL (127). -/
def isValidHeaderByte (n : Nat) : Bool :=
  n = 9 || (32 ≤ n && n ≠ 127)

/-- `HeaderValue::from_str` succeeds exactly when every byte of the
string is a valid header-value byte.  Every byte of a multi-byte UTF-8
character is ≥ 128, hence valid, so checking the characters' code points
is equivalent to checking the UTF-8 bytes. -/
def isValidHeaderValue (s : String) : Bool :=
  s.data.all fun c => isValidHeaderByte c.toNat

/-- The reqwest `Client` as far as this program configures it: its
default header map (a list of lowercased header names with values, in
insertion order). -/
structure Client where
  default_headers : List (String × String)
deriving DecidableEq

/-- `pub struct GithubAPI { base_url: String, client: Client }`. -/
structure GithubAPI where
  base_url : String
  client : Client
deriving DecidableEq

/-- `fn default_headers(api_key: String) -> HeaderMap`.  Builds the three
default headers.  `HeaderValue::from_str(&val).unwrap()` panics when the
authorization value is invalid, modelled as `none`; the other two values
are valid static strings. -/
def default_headers (api_key : String) : Option (List (String × String)) :=
  let val := "token " ++ api_key
  if isValidHeaderValue val then
    some [("authorization", val),
          ("user-agent", "gh-api-service"),
          ("accept", "application/json")]
  else
    none

/-- Outcome of `GithubAPI::new`: a panic (from the `unwrap` in
`default_headers`), an error value, or a client. -/
inductive NewResult where
  | panicked : NewResult
  | err (e : GHAPIError) : NewResult
  | ok (api : GithubAPI) : NewResult
deriving DecidableEq

/-- `GithubAPI::new(api_key, base_url)`.  `builder_ok` stands for whether
the underlying `reqwest::Client::builder().build()` call succeeds — an
environmental condition (e.g. TLS backend initialisation), independent of
the header map, whose failure is mapped to `ClientCreationFailed`. -/
def GithubAPI.new (api_key : String) (base_url : Option String)
    (builder_ok : Bool) : NewResult :=
  match default_headers api_key with
  | none => .panicked
  | some hm =>
    if builder_ok then
      .ok { base_url := base_url.getD BASE_URL, client := { default_headers := hm } }
    else
      .err .ClientCreationFailed

/-- The request built by `get_repository_details`:
`self.client.get(format!("{}/repos/{}", self.base_url, path))`. -/
def build_request (api : GithubAPI) (path : String) : HttpRequest :=
  { method := "GET", url := api.base_url ++ "/repos/" ++ path }

/-- `resp.json::<Repository>()`: read the full body, parse it as JSON and
deserialize; any failure (transport read, parse, shape) yields `none`. -/
def resp_json (body : BodyResult) : Option Repository :=
  match body with
  | .failed => none
  | .ok text => (parseJson text).bind deserializeRepository

/-- The response handling of `get_repository_details`: on a non-success
status, read the body as text (a read failure is mapped to
`FailedToDeserialize`) and fail with `ResponseUnsuccessful(body)`; on a
success status, deserialize the JSON body. -/
def handle_response (resp : HttpResponse) : Except GHAPIError Repository :=
  if statusIsSuccess resp.status then
    match resp_json resp.body with
    | none => .error .FailedToDeserialize
    | some repo => .ok repo
  else
    match resp.body with
    | .failed => .error .FailedToDeserialize
    | .ok text => .error (.ResponseUnsuccessful text)

/-- Map a send outcome to the method's result: a transport failure of the
send is `RequestFailed`; otherwise handle the response. -/
def handle_send : SendResult → Except GHAPIError Repository
  | .failed => .error .RequestFailed
  | .response resp => handle_response resp

/-- `GithubAPI::get_repository_details(&self, path)`, parameterised by
the network `send`: the method issues exactly one request, the one built
by `build_request`, and handles its outcome. -/
def GithubAPI.get_repository_details (api : GithubAPI) (path : String)
    (send : HttpRequest → SendResult) : Except GHAPIError Repository :=
  handle_send (send (build_request api path))

/-- One call of the method with the receiver state threaded explicitly:
the source takes `&self` (an immutable borrow), so the state after the
call is the unchanged receiver. -/
def get_repository_details_call (api : GithubAPI) (path : String)
    (send : HttpRequest → SendResult) :
    Except GHAPIError Repository × GithubAPI :=
  (api.get_repository_details path send, api)

/-! ## HTTP server stub (src/main.rs) -/

/-- A server response: status code and body text. -/
structure ServerResponse where
  status : Nat
  body : String
deriving DecidableEq

/-- `async fn handler() -> String { "hello world".into() }`. -/
def handler (_ : Unit) : String := "hello world"

/-- axum's `IntoResponse` for `String`: status 200 with the string as
body. -/
def string_into_response (s : String) : ServerResponse :=
  { status := 200, body := s }

/-- One routing entry: path, method, and the handler's response. -/
structure Route where
  path : String
  method : String
  respond : Unit → ServerResponse

/-- `Router::new().route("/", get(handler))`: the complete routing table
of the server. -/
def router : List Route :=
  [{ path := "/", method := "GET", respond := fun u => string_into_response (handler u) }]

/-- The `TraceLayer` middleware logs and is behaviourally the identity on
responses. -/
def trace_layer (resp : ServerResponse) : ServerResponse := resp

/-- An incoming server request: method and path. -/
structure ServerRequest where
  method : String
  path : String

/-- axum's default fallback for an unmatched request. -/
def not_found_response : ServerResponse := { status := 404, body := "" }

/-- Dispatch a request against a routing table: the first matching route
answers (through the trace layer); otherwise the framework's fallback. -/
def serve (routes : List Route) (req : ServerRequest) : ServerResponse :=
  match routes.find? (fun r => r.path == req.path && r.method == req.method) with
  | some r => trace_layer (r.respond ())
  | none => not_found_response

/-- `let addr: SocketAddr = ([127,0,0,1], 3000).into()`. -/
def listen_addr : (Nat × Nat × Nat × Nat) × Nat := ((127, 0, 0, 1), 3000)

/-! ## Auxiliary notions used to state the claims -/

/-- First binding of a key in a JSON object's member list. -/
def lookupField : List (String × Json) → String → Option Json
  | [], _ => none
  | (k, v) :: rest, key => if k = key then some v else lookupField rest key

/-- Value of the `full_name` visitor slot after processing `fields`
starting from state `st` (assuming the key occurs at most once with a
string value). -/
def fnameAfter (fields : List (String × Json)) (st : DePartial) : Option String :=
  match lookupField fields "full_name" with
  | some (.str s) => some s
  | _ => st.full_name

/-- Value of the `html_url` visitor slot after processing `fields`
starting from state `st`. -/
def hurlAfter (fields : List (String × Json)) (st : DePartial) : Option String :=
  match lookupField fields "html_url" with
  | some (.str s) => some s
  | _ => st.html_url

/-- The shapes the optional `description` member may take: absent, null,
or a string. -/
def descriptionFieldOk : Option Json → Prop
  | none => True
  | some .null => True
  | some (.str _) => True
  | some _ => False

/-- Whether a call result is a `ResponseUnsuccessful` error. -/
def is_response_unsuccessful : Except GHAPIError Repository → Bool
  | .error (.ResponseUnsuccessful _) => true
  | _ => false

/-! ## General lemmas -/

/-- The fixed prefix `token ` consists of valid header bytes, so validity
of the full authorization value is validity of the API key. -/
theorem isValidHeaderValue_token (api_key : String) :
    isValidHeaderValue ("token " ++ api_key) = isValidHeaderValue api_key := by
  unfold isValidHeaderValue
  rw [String.data_append, List.all_append]
  have h : "token ".data.all (fun c => isValidHeaderByte c.toNat) = true := by decide
  rw [h, Bool.true_and]

/-- A key that does not occur among an object's member names has no
binding. -/
theorem lookupField_eq_none (fields : List (String × Json)) (key : String)
    (h : key ∉ fields.map Prod.fst) : lookupField fields key = none := by
  induction fields with
  | nil => rfl
  | cons kv rest ih =>
    obtain ⟨k, v⟩ := kv
    simp only [List.map_cons, List.mem_cons, not_or] at h
    have hk : ¬ k = key := fun hk => h.1 hk.symm
    simp only [lookupField, if_neg hk]
    exact ih h.2

/-- Running the map visitor over a member list with pairwise-distinct
names succeeds whenever each of the three known names, where bound at
all, is bound to a value of the right type and its slot is still empty;
the `full_name` and `html_url` slots end up holding the bound values. -/
theorem deFields_total (fields : List (String × Json)) (st : DePartial)
    (hnodup : (fields.map Prod.fst).Nodup)
    (hfn : ∀ v, lookupField fields "full_name" = some v →
      (∃ s, v = .str s) ∧ st.full_name = none)
    (hdesc : ∀ v, lookupField fields "description" = some v →
      (v = .null ∨ ∃ s, v = .str s) ∧ st.description = none)
    (hhu : ∀ v, lookupField fields "html_url" = some v →
      (∃ s, v = .str s) ∧ st.html_url = none) :
    ∃ st2, deFields fields st = some st2 ∧
      st2.full_name = fnameAfter fields st ∧
      st2.html_url = hurlAfter fields st := by
  induction fields generalizing st with
  | nil => exact ⟨st, rfl, rfl, rfl⟩
  | cons kv rest ih =>
    obtain ⟨k, v⟩ := kv
    rw [List.map_cons, List.nodup_cons] at hnodup
    obtain ⟨hknotin, hnodup'⟩ := hnodup
    by_cases hk1 : k = "full_name"
    · subst hk1
      obtain ⟨⟨s, hv⟩, hslot⟩ := hfn v (by simp [lookupField])
      subst hv
      have hstep : deField st ("full_name", Json.str s)
          = some { st with full_name := some s } := by
        simp [deField, hslot]
      have hnone : lookupField rest "full_name" = none :=
        lookupField_eq_none rest "full_name" hknotin
      obtain ⟨st2, hrun, hfn2, hhu2⟩ :=
        ih { st with full_name := some s } hnodup'
          (fun v' hv' => by rw [hnone] at hv'; cases hv')
          (fun v' hv' => by
            refine ⟨(hdesc v' ?_).1, (hdesc v' ?_).2⟩ <;>
              simpa [lookupField] using hv')
          (fun v' hv' => by
            refine ⟨(hhu v' ?_).1, (hhu v' ?_).2⟩ <;>
              simpa [lookupField] using hv')
      refine ⟨st2, ?_, ?_, ?_⟩
      · simpa [deFields, hstep] using hrun
      · rw [hfn2]
        simp [fnameAfter, lookupField, hnone]
      · rw [hhu2]
        simp [hurlAfter, lookupField]
    · by_cases hk2 : k = "description"
      · subst hk2
        obtain ⟨hshape, hslot⟩ := hdesc v (by simp [lookupField])
        have hnone : lookupField rest "description" = none :=
          lookupField_eq_none rest "description" hknotin
        have hstep : ∃ d, deField st ("description", v)
            = some { st with description := some d } := by
          rcases hshape with hnull | ⟨s, hstr⟩
          · subst hnull; exact ⟨none, by simp [deField, hslot]⟩
          · subst hstr; exact ⟨some s, by simp [deField, hslot]⟩
        obtain ⟨d, hstep⟩ := hstep
        obtain ⟨st2, hrun, hfn2, hhu2⟩ :=
          ih { st with description := some d } hnodup'
            (fun v' hv' => by
              refine ⟨(hfn v' ?_).1, (hfn v' ?_).2⟩ <;>
                simpa [lookupField] using hv')
            (fun v' hv' => by rw [hnone] at hv'; cases hv')
            (fun v' hv' => by
              refine ⟨(hhu v' ?_).1, (hhu v' ?_).2⟩ <;>
                simpa [lookupField] using hv')
        refine ⟨st2, ?_, ?_, ?_⟩
        · simpa [deFields, hstep] using hrun
        · rw [hfn2]; simp [fnameAfter, lookupField]
        · rw [hhu2]; simp [hurlAfter, lookupField]
      · by_cases hk3 : k = "html_url"
        · subst hk3
          obtain ⟨⟨s, hv⟩, hslot⟩ := hhu v (by simp [lookupField])
          subst hv
          have hstep : deField st ("html_url", Json.str s)
              = some { st with html_url := some s } := by
            simp [deField, hslot]
          have hnone : lookupField rest "html_url" = none :=
            lookupField_eq_none rest "html_url" hknotin
          obtain ⟨st2, hrun, hfn2, hhu2⟩ :=
            ih { st with html_url := some s } hnodup'
              (fun v' hv' => by
                refine ⟨(hfn v' ?_).1, (hfn v' ?_).2⟩ <;>
                  simpa [lookupField] using hv')
              (fun v' hv' => by
                refine ⟨(hdesc v' ?_).1, (hdesc v' ?_).2⟩ <;>
                  simpa [lookupField] using hv')
              (fun v' hv' => by rw [hnone] at hv'; cases hv')
          refine ⟨st2, ?_, ?_, ?_⟩
          · simpa [deFields, hstep] using hrun
          · rw [hfn2]; simp [fnameAfter, lookupField]
          · rw [hhu2]
            simp [hurlAfter, lookupField, hnone]
        · have hstep : deField st (k, v) = some st := by
            simp [deField, hk1, hk2, hk3]
          obtain ⟨st2, hrun, hfn2, hhu2⟩ :=
            ih st hnodup'
              (fun v' hv' => by
                refine ⟨(hfn v' ?_).1, (hfn v' ?_).2⟩ <;>
                  simpa [lookupField, hk1] using hv')
              (fun v' hv' => by
                refine ⟨(hdesc v' ?_).1, (hdesc v' ?_).2⟩ <;>
                  simpa [lookupField, hk2] using hv')
              (fun v' hv' => by
                refine ⟨(hhu v' ?_).1, (hhu v' ?_).2⟩ <;>
                  simpa [lookupField, hk3] using hv')
          refine ⟨st2, ?_, ?_, ?_⟩
          · simpa [deFields, hstep] using hrun
          · rw [hfn2]; simp [fnameAfter, lookupField, hk1]
          · rw [hhu2]; simp [hurlAfter, lookupField, hk3]

/-! ## Claim theorems -/

/-- C1 (counterexample): the API key `"bad\nkey"` contains a character
invalid in an HTTP header value, yet `GithubAPI::new` does not return
`ClientCreationFailed` for it — the `unwrap` in `default_headers` panics
first. -/
theorem new_invalid_key_panics_cex :
    isValidHeaderValue "bad\nkey" = false ∧
    GithubAPI.new "bad\nkey" none true = NewResult.panicked ∧
    GithubAPI.new "bad\nkey" none true ≠ NewResult.err GHAPIError.ClientCreationFailed := by
  refine ⟨by decide, by decide, by decide⟩

/-- C1 (amended): for every API key containing a character invalid in an
HTTP header value, constructing the client panics (the `unwrap` on
`HeaderValue::from_str` inside `default_headers`) — in particular it
never returns a client, but it also never returns
`ClientCreationFailed`. -/
theorem new_invalid_key_panics (api_key : String) (base_url : Option String)
    (builder_ok : Bool) (h : isValidHeaderValue api_key = false) :
    GithubAPI.new api_key base_url builder_ok = NewResult.panicked := by
  have hfull : isValidHeaderValue ("token " ++ api_key) = false := by
    rw [isValidHeaderValue_token]; exact h
  unfold GithubAPI.new default_headers
  simp [hfull]

/-- C1 (witness for the amended theorem): the amended theorem applied to
the concrete invalid key `"bad\nkey"`. -/
theorem new_invalid_key_panics_witness :
    isValidHeaderValue "bad\nkey" = false ∧
    GithubAPI.new "bad\nkey" none true = NewResult.panicked :=
  ⟨by decide, new_invalid_key_panics "bad\nkey" none true (by decide)⟩

/-- C2: for every response with a non-2xx status whose body reads to
text, `get_repository_details` fails with `ResponseUnsuccessful` carrying
exactly that body text. -/
theorem get_repository_details_non2xx (api : GithubAPI) (path : String)
    (send : HttpRequest → SendResult) (resp : HttpResponse) (text : String)
    (hsend : send (build_request api path) = .response resp)
    (hstatus : statusIsSuccess resp.status = false)
    (hbody : resp.body = .ok text) :
    api.get_repository_details path send
      = .error (.ResponseUnsuccessful text) := by
  unfold GithubAPI.get_repository_details
  rw [hsend]
  simp [handle_send, handle_response, hstatus, hbody]

/-- C2 (witness): a mock 404 with body `{"message":"Not Found"}` yields
`ResponseUnsuccessful` with exactly that body. -/
theorem get_repository_details_non2xx_witness :
    GithubAPI.get_repository_details ⟨"http://mock", ⟨[]⟩⟩ "tarkalabs/ssh-signer"
        (fun _ => .response ⟨404, .ok "\x7b\"message\":\"Not Found\"\x7d"⟩)
      = .error (.ResponseUnsuccessful "\x7b\"message\":\"Not Found\"\x7d") :=
  get_repository_details_non2xx _ _ _ ⟨404, .ok "\x7b\"message\":\"Not Found\"\x7d"⟩ _
    rfl (by decide) rfl

/-- C3 (counterexample): a 2xx response whose body read fails also
yields `FailedToDeserialize`, although neither of the claim's two cases
holds there: the status is a success and there is no readable JSON body
that fails to match the shape. -/
theorem failed_to_deserialize_iff_cex :
    GithubAPI.get_repository_details ⟨"http://mock", ⟨[]⟩⟩ "p"
        (fun _ => .response ⟨200, .failed⟩) = .error .FailedToDeserialize ∧
    ¬ ((statusIsSuccess 200 = true ∧
          ∃ text, BodyResult.failed = BodyResult.ok text ∧
            (parseJson text).bind deserializeRepository = none) ∨
        (statusIsSuccess 200 = false ∧ BodyResult.failed = BodyResult.failed)) := by
  constructor
  · rfl
  · intro h
    rcases h with ⟨_, text, htext, _⟩ | ⟨hfalse, _⟩
    · cases htext
    · exact absurd hfalse (by decide)

/-- C3 (amended): `get_repository_details` fails with
`FailedToDeserialize` exactly when either (a) the status is 2xx and
deserializing the body fails — because reading the body fails or because
the JSON does not match the `Repository` shape — or (b) the status is
non-2xx and reading the error body's text fails. -/
theorem failed_to_deserialize_iff (api : GithubAPI) (path : String)
    (send : HttpRequest → SendResult) (resp : HttpResponse)
    (hsend : send (build_request api path) = .response resp) :
    api.get_repository_details path send = .error .FailedToDeserialize ↔
      (statusIsSuccess resp.status = true ∧
        (resp.body = .failed ∨
          ∃ text, resp.body = .ok text ∧
            (parseJson text).bind deserializeRepository = none)) ∨
      (statusIsSuccess resp.status = false ∧ resp.body = .failed) := by
  have hcall : api.get_repository_details path send = handle_response resp := by
    unfold GithubAPI.get_repository_details
    rw [hsend]
    rfl
  rw [hcall]
  by_cases hs : statusIsSuccess resp.status = true
  · cases hb : resp.body with
    | failed => simp [handle_response, resp_json, hs, hb]
    | ok text =>
      cases hj : (parseJson text).bind deserializeRepository with
      | none =>
        simp [handle_response, resp_json, hs, hb, hj]
        intro a ha
        rw [ha] at hj
        simpa using hj
      | some repo =>
        simp [handle_response, resp_json, hs, hb, hj]
        cases hx : parseJson text with
        | none => rw [hx] at hj; simp at hj
        | some x =>
          rw [hx] at hj
          simp only [Option.some_bind] at hj
          exact ⟨x, rfl, by simp [hj]⟩
  · have hs' : statusIsSuccess resp.status = false := by simpa using hs
    cases hb : resp.body with
    | failed => simp [handle_response, hs', hb]
    | ok text => simp [handle_response, hs', hb]

/-- C3 (witness for the amended theorem): the amended equivalence at a
concrete 200 response whose body `{}` parses but misses `full_name`. -/
theorem failed_to_deserialize_iff_witness :
    (GithubAPI.get_repository_details ⟨"http://mock", ⟨[]⟩⟩ "p"
        (fun _ => .response ⟨200, .ok "\x7b\x7d"⟩) = .error .FailedToDeserialize ↔
      (statusIsSuccess 200 = true ∧
        (BodyResult.ok "\x7b\x7d" = BodyResult.failed ∨
          ∃ text, BodyResult.ok "\x7b\x7d" = BodyResult.ok text ∧
            (parseJson text).bind deserializeRepository = none)) ∨
      (statusIsSuccess 200 = false ∧ BodyResult.ok "\x7b\x7d" = BodyResult.failed)) :=
  failed_to_deserialize_iff _ _ _ ⟨200, .ok "\x7b\x7d"⟩ rfl

/-- C4: a 2xx response whose body parses to a JSON object (member names
pairwise distinct) binding `full_name` and `html_url` to strings, with
`description` absent, null or a string, deserializes successfully — any
extra members are ignored — and the returned `Repository`'s `full_name`
is the body's `full_name`. -/
theorem get_repository_details_success (api : GithubAPI) (path : String)
    (send : HttpRequest → SendResult) (resp : HttpResponse) (text : String)
    (fields : List (String × Json)) (fn hu : String)
    (hsend : send (build_request api path) = .response resp)
    (hstatus : statusIsSuccess resp.status = true)
    (hbody : resp.body = .ok text)
    (hparse : parseJson text = some (.obj fields))
    (hnodup : (fields.map Prod.fst).Nodup)
    (hfn : lookupField fields "full_name" = some (.str fn))
    (hhu : lookupField fields "html_url" = some (.str hu))
    (hdesc : descriptionFieldOk (lookupField fields "description")) :
    ∃ repo, api.get_repository_details path send = .ok repo ∧
      repo.full_name = fn := by
  obtain ⟨st2, hrun, hfn2, hhu2⟩ :=
    deFields_total fields ⟨none, none, none⟩ hnodup
      (fun v hv => by
        rw [hfn] at hv
        exact ⟨⟨fn, (Option.some.inj hv).symm⟩, rfl⟩)
      (fun v hv => by
        refine ⟨?_, rfl⟩
        rw [hv] at hdesc
        cases v with
        | null => exact Or.inl rfl
        | str s => exact Or.inr ⟨s, rfl⟩
        | bool b => exact hdesc.elim
        | num lit => exact hdesc.elim
        | arr elems => exact hdesc.elim
        | obj fs => exact hdesc.elim)
      (fun v hv => by
        rw [hhu] at hv
        exact ⟨⟨hu, (Option.some.inj hv).symm⟩, rfl⟩)
  obtain ⟨f2, d2, h2⟩ := st2
  have hfn3 : f2 = some fn := by
    rw [show f2 = DePartial.full_name ⟨f2, d2, h2⟩ from rfl, hfn2]
    simp [fnameAfter, hfn]
  have hhu3 : h2 = some hu := by
    rw [show h2 = DePartial.html_url ⟨f2, d2, h2⟩ from rfl, hhu2]
    simp [hurlAfter, hhu]
  subst hfn3
  subst hhu3
  refine ⟨⟨fn, d2.getD none, hu⟩, ?_, rfl⟩
  unfold GithubAPI.get_repository_details
  rw [hsend]
  simp [handle_send, handle_response, hstatus, hbody, resp_json, hparse,
    deserializeRepository, hrun, finishDe]

/-- C4 source fidelity note: the mock response body of the repository's
test (`mock_repo_details_body.json`, referenced by `include_str!` but
spelled out in the specification). -/
def mock_body : String :=
  "\x7b\"full_name\":\"tarkalabs/ssh-signer\",\"description\":null,\"html_url\":\"https://github.com/tarkalabs/ssh-signer\"\x7d"

/-- C4 (witness): the literal test case — requesting
`tarkalabs/ssh-signer` against a mock answering the spec's body yields a
`Repository` with `full_name = "tarkalabs/ssh-signer"`. -/
theorem get_repository_details_success_witness :
    ∃ repo, GithubAPI.get_repository_details ⟨"http://mock", ⟨[]⟩⟩ "tarkalabs/ssh-signer"
        (fun req => if req = ⟨"GET", "http://mock/repos/tarkalabs/ssh-signer"⟩
          then .response ⟨200, .ok mock_body⟩ else .failed)
      = .ok repo ∧ repo.full_name = "tarkalabs/ssh-signer" :=
  get_repository_details_success _ _ _ ⟨200, .ok mock_body⟩ mock_body
    [("full_name", .str "tarkalabs/ssh-signer"), ("description", .null),
     ("html_url", .str "https://github.com/tarkalabs/ssh-signer")]
    "tarkalabs/ssh-signer" "https://github.com/tarkalabs/ssh-signer"
    (by decide) (by decide) rfl (by rfl) (by decide) rfl rfl trivial

/-- C5: a constructed client's base URL is the override if supplied, else
the fixed default `https://api.github.com`, and `get_repository_details`
issues exactly one GET request, to `{baseUrl}/repos/{path}`. -/
theorem get_repository_details_request (api_key : String) (base_url : Option String)
    (builder_ok : Bool) (api : GithubAPI) (path : String)
    (send : HttpRequest → SendResult)
    (h : GithubAPI.new api_key base_url builder_ok = .ok api) :
    api.base_url = base_url.getD "https://api.github.com" ∧
    build_request api path =
      ⟨"GET", base_url.getD "https://api.github.com" ++ "/repos/" ++ path⟩ ∧
    api.get_repository_details path send
      = handle_send (send ⟨"GET", base_url.getD "https://api.github.com" ++ "/repos/" ++ path⟩) := by
  have hbase : api.base_url = base_url.getD BASE_URL := by
    unfold GithubAPI.new at h
    cases hd : default_headers api_key with
    | none => rw [hd] at h; cases h
    | some hm =>
      rw [hd] at h
      cases builder_ok with
      | false => cases h
      | true =>
        injection h with h2
        rw [← h2]
  refine ⟨hbase, ?_, ?_⟩
  · unfold build_request
    rw [hbase]
    rfl
  · unfold GithubAPI.get_repository_details build_request
    rw [hbase]
    rfl

/-- C5 (witness): the request theorem at a concrete construction with no
override: the default base URL is used and the request URL is the
concatenation. -/
theorem get_repository_details_request_witness :
    (GithubAPI.mk "https://api.github.com"
        ⟨[("authorization", "token k"), ("user-agent", "gh-api-service"),
          ("accept", "application/json")]⟩).base_url
      = (none : Option String).getD "https://api.github.com" ∧
    build_request
        (GithubAPI.mk "https://api.github.com"
          ⟨[("authorization", "token k"), ("user-agent", "gh-api-service"),
            ("accept", "application/json")]⟩) "tarkalabs/ssh-signer"
      = ⟨"GET", (none : Option String).getD "https://api.github.com" ++ "/repos/" ++ "tarkalabs/ssh-signer"⟩ ∧
    GithubAPI.get_repository_details
        (GithubAPI.mk "https://api.github.com"
          ⟨[("authorization", "token k"), ("user-agent", "gh-api-service"),
            ("accept", "application/json")]⟩) "tarkalabs/ssh-signer"
        (fun _ => SendResult.failed)
      = handle_send ((fun _ => SendResult.failed)
          (⟨"GET", (none : Option String).getD "https://api.github.com" ++ "/repos/" ++ "tarkalabs/ssh-signer"⟩ : HttpRequest)) :=
  get_repository_details_request "k" none true _ "tarkalabs/ssh-signer"
    (fun _ => SendResult.failed) (by decide)

/-- C6: every client accepted at construction carries exactly the three
default headers: `Authorization: token <apiKey>`,
`User-Agent: gh-api-service` and `Accept: application/json`. -/
theorem client_default_headers (api_key : String) (base_url : Option String)
    (builder_ok : Bool) (api : GithubAPI)
    (h : GithubAPI.new api_key base_url builder_ok = .ok api) :
    api.client.default_headers =
      [("authorization", "token " ++ api_key),
       ("user-agent", "gh-api-service"),
       ("accept", "application/json")] := by
  unfold GithubAPI.new at h
  cases hd : default_headers api_key with
  | none => rw [hd] at h; cases h
  | some hm =>
    rw [hd] at h
    cases builder_ok with
    | false => cases h
    | true =>
      injection h with h2
      rw [← h2]
      unfold default_headers at hd
      simp only at hd
      by_cases hv : isValidHeaderValue ("token " ++ api_key) = true
      · rw [if_pos hv] at hd
        injection hd with hd2
        rw [← hd2]
      · rw [if_neg hv] at hd
        cases hd

/-- C6 (witness): the header theorem at the concrete key `k`. -/
theorem client_default_headers_witness :
    (GithubAPI.mk "https://api.github.com"
        ⟨[("authorization", "token k"), ("user-agent", "gh-api-service"),
          ("accept", "application/json")]⟩).client.default_headers
      = [("authorization", "token " ++ "k"),
         ("user-agent", "gh-api-service"),
         ("accept", "application/json")] :=
  client_default_headers "k" none true _ (by decide)

/-- C7: with the receiver state threaded explicitly (the method takes
`&self`), a second call with the identical mock network returns the same
value as the first, and neither call changes the client's
configuration. -/
theorem get_repository_details_idempotent (api : GithubAPI) (path : String)
    (send : HttpRequest → SendResult) :
    (get_repository_details_call api path send).1
      = (get_repository_details_call
          (get_repository_details_call api path send).2 path send).1 ∧
    (get_repository_details_call api path send).2 = api ∧
    (get_repository_details_call
        (get_repository_details_call api path send).2 path send).2 = api :=
  ⟨rfl, rfl, rfl⟩

/-- C8: the routing table has exactly one entry, `GET /`, whose response
is status 200 with body exactly `hello world`, and the server binds the
hardcoded address `127.0.0.1:3000`. -/
theorem server_root_route :
    serve router ⟨"GET", "/"⟩ = ⟨200, "hello world"⟩ ∧
    router.map (fun r => (r.path, r.method)) = [("/", "GET")] ∧
    listen_addr = ((127, 0, 0, 1), 3000) :=
  ⟨rfl, rfl, rfl⟩

/-- C9: `ResponseUnsuccessful` arises only from a non-2xx response; on a
2xx response the result is never `ResponseUnsuccessful` (the status check
precedes deserialization). -/
theorem response_unsuccessful_only_non2xx (api : GithubAPI) (path : String)
    (send : HttpRequest → SendResult) (resp : HttpResponse)
    (hsend : send (build_request api path) = .response resp) :
    (is_response_unsuccessful (api.get_repository_details path send) = true →
      statusIsSuccess resp.status = false) ∧
    (statusIsSuccess resp.status = true →
      is_response_unsuccessful (api.get_repository_details path send) = false) := by
  have hcall : api.get_repository_details path send = handle_response resp := by
    unfold GithubAPI.get_repository_details
    rw [hsend]
    rfl
  rw [hcall]
  by_cases hs : statusIsSuccess resp.status = true
  · have hnot : is_response_unsuccessful (handle_response resp) = false := by
      unfold handle_response
      rw [if_pos hs]
      cases resp_json resp.body <;> simp [is_response_unsuccessful]
    exact ⟨fun habs => absurd habs (by rw [hnot]; decide), fun _ => hnot⟩
  · have hs' : statusIsSuccess resp.status = false := by simpa using hs
    exact ⟨fun _ => hs', fun hcontra => absurd hcontra hs⟩

/-- C9 (witness): the exclusivity theorem at a concrete 404 response. -/
theorem response_unsuccessful_only_non2xx_witness :
    (is_response_unsuccessful
        (GithubAPI.get_repository_details ⟨"http://mock", ⟨[]⟩⟩ "p"
          (fun _ => .response ⟨404, .ok "nf"⟩)) = true →
      statusIsSuccess 404 = false) ∧
    (statusIsSuccess 404 = true →
      is_response_unsuccessful
        (GithubAPI.get_repository_details ⟨"http://mock", ⟨[]⟩⟩ "p"
          (fun _ => .response ⟨404, .ok "nf"⟩)) = false) :=
  response_unsuccessful_only_non2xx _ _ _ ⟨404, .ok "nf"⟩ rfl

/-- C10: the path is interpolated verbatim into the request URL for every
string — unvalidated and unescaped — illustrated at an empty path, a path
with extra slashes, and a path with query characters. -/
theorem build_request_verbatim :
    (∀ (api : GithubAPI) (path : String),
      (build_request api path).method = "GET" ∧
      (build_request api path).url = api.base_url ++ "/repos/" ++ path) ∧
    (build_request ⟨"http://mock", ⟨[]⟩⟩ "").url = "http://mock/repos/" ∧
    (build_request ⟨"http://mock", ⟨[]⟩⟩ "a/b/c").url = "http://mock/repos/a/b/c" ∧
    (build_request ⟨"http://mock", ⟨[]⟩⟩ "x?q=1&r=%2f").url = "http://mock/repos/x?q=1&r=%2f" :=
  ⟨fun _ _ => ⟨rfl, rfl⟩, by decide, by decide, by decide⟩

end GhService
